import Mathlib

/-!
Shallow embedding of `src/booktracker.py` (single-file tkinter application).

Python strings are Lean `String`; the dict-based book records become the
structure `Book`; the output of `json.load` is modelled by `RawBook`, whose
`status`/`notes`/date fields are optional (a key may be absent from the JSON
object) and whose date fields carry the `JVal` sum (the stored value may be a
JSON list of strings, a bare string, or `null`).  `datetime.strptime` with
format `%d.%m.%Y` becomes `strptimeDMY`; `datetime` comparison becomes the
lexicographic order `dateLE`/`dateLT` on `(year, month, day)`.  Python's
stable `list.sort` becomes the stable insertion sort `isort`.  GUI prompts
(`messagebox.askyesno`) become a caller-supplied boolean decision, and the
treeview refresh becomes the pure function `refresh_book_list` returning the
visible rows.
-/

namespace BookTracker

/-- ASCII lower-casing of one character, as `str.lower` acts on ASCII data. -/
def lowerChar (c : Char) : Char :=
  if 65 ≤ c.toNat ∧ c.toNat ≤ 90 then Char.ofNat (c.toNat + 32) else c

/-- Python `s.lower()` (restricted to its ASCII action). -/
def pyLower (s : String) : String := String.mk (s.data.map lowerChar)

/-- Whitespace characters removed by Python `str.strip()`. -/
def isSpaceB (c : Char) : Bool :=
  c.toNat = 32 || c.toNat = 9 || c.toNat = 10 || c.toNat = 13 ||
  c.toNat = 11 || c.toNat = 12

/-- Strip whitespace from both ends of a character list. -/
def stripList (cs : List Char) : List Char :=
  ((cs.dropWhile isSpaceB).reverse.dropWhile isSpaceB).reverse

/-- Python `s.strip()`. -/
def pyStrip (s : String) : String := String.mk (stripList s.data)

/-- Does `hay` start with `needle`? -/
def leadMatch : List Char → List Char → Bool
  | [], _ => true
  | _ :: _, [] => false
  | a :: as, b :: bs => a == b && leadMatch as bs

/-- Is `needle` a contiguous sublist of the second argument? -/
def subList (needle : List Char) : List Char → Bool
  | [] => leadMatch needle []
  | c :: t => leadMatch needle (c :: t) || subList needle t

/-- Python `needle in hay` for strings (substring containment). -/
def pyIn (needle hay : String) : Bool := subList needle.data hay.data

/-- Python `s.split(sep)` for a one-character separator. -/
def splitOnChar (sep : Char) : List Char → List (List Char)
  | [] => [[]]
  | c :: t =>
    if c == sep then [] :: splitOnChar sep t
    else
      match splitOnChar sep t with
      | [] => [[c]]
      | p :: ps => (c :: p) :: ps

/-- ASCII decimal digit test. -/
def isDigitB (c : Char) : Bool := 48 ≤ c.toNat && c.toNat ≤ 57

/-- Numeric value of a digit string. -/
def digitsVal (cs : List Char) : Nat :=
  cs.foldl (fun a c => a * 10 + (c.toNat - 48)) 0

/-- A parsed `datetime` date: `strptime` with `%d.%m.%Y` produces one. -/
structure PDate where
  year : Nat
  month : Nat
  day : Nat
deriving DecidableEq, Repr

/-- Gregorian leap-year rule used by `datetime` for day-of-month validation. -/
def isLeap (y : Nat) : Bool := (y % 4 == 0 && y % 100 != 0) || y % 400 == 0

/-- Number of days in a month, as `datetime` validates `%d`. -/
def monthDays (m y : Nat) : Nat :=
  if m == 2 then (if isLeap y then 29 else 28)
  else if m == 4 || m == 6 || m == 9 || m == 11 then 30
  else 31

/-- The `_strptime` pattern for a `%d` day field, with its alternatives in
order: `3[0-1]`, `[1-2]` then a digit, `0[1-9]`, a single `[1-9]`, or a
leading space then `[1-9]`. -/
def dayField : List Char → Option Nat
  | [c] => if 49 ≤ c.toNat ∧ c.toNat ≤ 57 then some (c.toNat - 48) else none
  | [a, c] =>
    if a.toNat = 51 ∧ (c.toNat = 48 ∨ c.toNat = 49) then
      some (30 + (c.toNat - 48))
    else if (a.toNat = 49 ∨ a.toNat = 50) ∧ (48 ≤ c.toNat ∧ c.toNat ≤ 57) then
      some ((a.toNat - 48) * 10 + (c.toNat - 48))
    else if a.toNat = 48 ∧ (49 ≤ c.toNat ∧ c.toNat ≤ 57) then
      some (c.toNat - 48)
    else if a.toNat = 32 ∧ (49 ≤ c.toNat ∧ c.toNat ≤ 57) then
      some (c.toNat - 48)
    else none
  | _ => none

/-- The `_strptime` pattern for a `%m` month field: `1[0-2]`, `0[1-9]`, or
a single `[1-9]`. -/
def monthField : List Char → Option Nat
  | [c] => if 49 ≤ c.toNat ∧ c.toNat ≤ 57 then some (c.toNat - 48) else none
  | [a, c] =>
    if a.toNat = 49 ∧ (48 ≤ c.toNat ∧ c.toNat ≤ 50) then
      some (10 + (c.toNat - 48))
    else if a.toNat = 48 ∧ (49 ≤ c.toNat ∧ c.toNat ≤ 57) then
      some (c.toNat - 48)
    else none
  | _ => none

/-- The `_strptime` pattern for a `%Y` year field: exactly four digits. -/
def yearField (cs : List Char) : Option Nat :=
  if cs.length = 4 ∧ cs.all isDigitB then some (digitsVal cs) else none

/-- `datetime.strptime(s, "%d.%m.%Y")`: the `_strptime` field patterns for
`%d`, `%m` and `%Y` joined by literal dots and consuming the whole string
(the fields contain no dot, so the anchored regex match coincides with
splitting on dots), followed by the `datetime` constructor's range check —
the year at least 1 and the day existing in the given month and year.  On
failure (`ValueError`) the result is `none`. -/
def strptimeDMY (s : String) : Option PDate :=
  match splitOnChar (Char.ofNat 46) s.data with
  | [ds, ms, ys] =>
    match dayField ds, monthField ms, yearField ys with
    | some dv, some mv, some yv =>
      if 1 ≤ yv ∧ 1 ≤ mv ∧ mv ≤ 12 ∧ 1 ≤ dv ∧ dv ≤ monthDays mv yv then
        some ⟨yv, mv, dv⟩
      else none
    | _, _, _ => none
  | _ => none

/-- `datetime.min`, i.e. year 1, January 1. -/
def minDate : PDate := ⟨1, 1, 1⟩

/-- `datetime` order (lexicographic on year, month, day), non-strict. -/
def dateLE (a b : PDate) : Bool :=
  decide (a.year < b.year ∨ (a.year = b.year ∧
    (a.month < b.month ∨ (a.month = b.month ∧ a.day ≤ b.day))))

/-- `datetime` order (lexicographic on year, month, day), strict. -/
def dateLT (a b : PDate) : Bool :=
  decide (a.year < b.year ∨ (a.year = b.year ∧
    (a.month < b.month ∨ (a.month = b.month ∧ a.day < b.day))))

/-- Status string constants, the keys of `STATUS_COLORS`. -/
def sUnread : String := "Unread"

/-- Status string for a book being read. -/
def sReading : String := "Reading"

/-- Status string for a finished book. -/
def sRead : String := "Read"

/-- `STATUSES = list(STATUS_COLORS.keys())`. -/
def STATUSES : List String := [sUnread, sReading, sRead]

/-- A normalized in-memory book record (the dicts held in `self.books`). -/
structure Book where
  title : String
  author : String
  tags : List String
  status : String
  start_date : List String
  date_finished : List String
  notes : String
deriving DecidableEq, Repr

/-- A JSON value that may sit under `start_date`/`date_finished` in the file:
a list of strings, a bare string (legacy), or `null`. -/
inductive JVal where
  | jlist (xs : List String)
  | jstr (s : String)
  | jnull
deriving DecidableEq, Repr

/-- One object of the JSON array as `json.load` returns it; `none` in an
optional field means the key is absent from the object. -/
structure RawBook where
  title : String
  author : String
  tags : List String
  status : Option String
  notes : Option String
  start_date : Option JVal
  date_finished : Option JVal
deriving DecidableEq, Repr

/-- `ensure_list` (lines 50-56): keep a list, wrap a truthy scalar in a
one-element list, and turn a falsy value (empty string, `None`) into `[]`. -/
def ensure_list : JVal → List String
  | JVal.jlist xs => xs
  | JVal.jstr s => if s = "" then [] else [s]
  | JVal.jnull => []

/-- `ensure_list(book.get(field, []))`: an absent key defaults to `[]`. -/
def getDateField (v : Option JVal) : List String :=
  ensure_list (v.getD (JVal.jlist []))

/-- The per-record normalization loop shared by `load_books` (lines 372-376)
and `load_file` (lines 145-149): `setdefault` for `notes` and `status`,
`ensure_list` for the two date fields. -/
def normBook (r : RawBook) : Book :=
  { title := r.title
    author := r.author
    tags := r.tags
    status := (r.status).getD sUnread
    notes := (r.notes).getD ("")
    start_date := getDateField r.start_date
    date_finished := getDateField r.date_finished }

/-- The record `json.dump` writes for a normalized book (`save_books`,
lines 526-529, dumps `self.books` verbatim): every key present, the date
fields stored as lists. -/
def bookToRaw (b : Book) : RawBook :=
  { title := b.title
    author := b.author
    tags := b.tags
    status := some b.status
    notes := some b.notes
    start_date := some (JVal.jlist b.start_date)
    date_finished := some (JVal.jlist b.date_finished) }

/-- `save_books` (lines 526-529): serialize the collection verbatim.  The
result is the JSON array that a later parse of the written file returns. -/
def save_books (books : List Book) : List RawBook := books.map bookToRaw

/-- Outcome of opening and `json.load`-ing the backing file. -/
inductive FileRead where
  | notFound
  | badJson
  | ok (raws : List RawBook)
deriving DecidableEq

/-- The error `load_books` can propagate: `json.JSONDecodeError`. -/
inductive LoadErr where
  | parseErr
deriving DecidableEq, Repr

/-- `load_books` (lines 368-379): parse and normalize; `FileNotFoundError`
is caught and yields an empty collection, while `json.JSONDecodeError` is
not caught there and propagates (modelled as `Except.error`). -/
def load_books : FileRead → Except LoadErr (List Book)
  | FileRead.notFound => Except.ok []
  | FileRead.badJson => Except.error LoadErr.parseErr
  | FileRead.ok raws => Except.ok (raws.map normBook)

/-- The application state the load actions touch: the active path and the
in-memory collection. -/
structure AppSt where
  data_file : String
  books : List Book
deriving DecidableEq, Repr

/-- `load_file` (lines 136-156): load from a user-chosen path.  On a parse
or not-found failure the `except` arm shows an error dialog (the returned
flag is `true`) and leaves `self.books` and `self.data_file` unchanged; on
success the collection is replaced wholesale and saves are redirected. -/
def load_file (st : AppSt) (path : String) (content : FileRead) :
    AppSt × Bool :=
  match content with
  | FileRead.ok raws => ({ data_file := path, books := raws.map normBook }, false)
  | FileRead.badJson => (st, true)
  | FileRead.notFound => (st, true)

/-- The date-coercion rule as the specification words it (for comparison
with the source's `ensure_list`-based normalization): if the stored value is
already a sequence keep it, if it is a non-empty scalar wrap it in a
one-element sequence, and if it is empty or missing use the empty sequence. -/
def specCoerceDate : Option JVal → List String
  | some (JVal.jlist xs) => xs
  | some (JVal.jstr s) => if s = "" then [] else [s]
  | some JVal.jnull => []
  | none => []

/-- Search-field selector value of the combobox. -/
def fAllFields : String := "All Fields"

/-- Search-field selector for the title column. -/
def fTitle : String := "Title"

/-- Search-field selector for the author column. -/
def fAuthor : String := "Author"

/-- Search-field selector for the start-date column. -/
def fStarted : String := "Started"

/-- Search-field selector for the finish-date column. -/
def fFinished : String := "Finished"

/-- Search-field selector for the tags column. -/
def fTags : String := "Tags"

/-- Search-field selector for the notes column. -/
def fNotes : String := "Notes"

/-- Python `", ".join(xs)`. -/
def joinComma (xs : List String) : String := String.intercalate (", ") xs

/-- The `"All Fields"` row of the `matches` dict in `refresh_book_list`
(lines 342-346): the lowered search term occurs in title, author or notes,
or in some tag, or in a comma-joined date rendering.  `term` is already
stripped and lowered by the caller. -/
def allFieldsMatch (term : String) (b : Book) : Bool :=
  pyIn term (pyLower b.title) || pyIn term (pyLower b.author) ||
  pyIn term (pyLower b.notes) ||
  b.tags.any (fun tg => pyIn term (pyLower tg)) ||
  pyIn term (pyLower (joinComma b.start_date)) ||
  pyIn term (pyLower (joinComma b.date_finished))

/-- The `matches` dict lookup `matches.get(search_field, matches["All
Fields"])` of `refresh_book_list` (lines 335-348): the per-column substring
tests, any unknown selector falling back to `"All Fields"`.  In the loop the
date fields pass through `ensure_list` again; on normalized books that is
the identity, so the joined rendering is used directly. -/
def bookMatches (term : String) (field : String) (b : Book) : Bool :=
  if field = fTitle then pyIn term (pyLower b.title)
  else if field = fAuthor then pyIn term (pyLower b.author)
  else if field = fTags then b.tags.any (fun tg => pyIn term (pyLower tg))
  else if field = fNotes then pyIn term (pyLower b.notes)
  else if field = fStarted then pyIn term (pyLower (joinComma b.start_date))
  else if field = fFinished then pyIn term (pyLower (joinComma b.date_finished))
  else allFieldsMatch term b

/-- The three per-status visibility checkboxes (`self.status_filters`). -/
structure StatusVis where
  unread : Bool
  reading : Bool
  read : Bool
deriving DecidableEq, Repr

/-- The dict lookup `self.status_filters[book["status"]].get()`: `none`
models the `KeyError` raised on a status outside the three known ones. -/
def visOf (v : StatusVis) (st : String) : Option Bool :=
  if st = sUnread then some v.unread
  else if st = sReading then some v.reading
  else if st = sRead then some v.read
  else none

/-- Whether a book's status checkbox is ticked (meaningful on the three
known statuses, where `visOf` is `some`). -/
def visibleB (v : StatusVis) (b : Book) : Bool := (visOf v b.status).getD false

/-- All three status checkboxes ticked (their default). -/
def visAll : StatusVis := ⟨true, true, true⟩

/-- The second loop of `refresh_book_list` (lines 353-363): keep the books
whose status checkbox is ticked; a book with an unknown status raises
`KeyError`, modelled as `none`. -/
def visFilter (v : StatusVis) : List Book → Option (List Book)
  | [] => some []
  | b :: t =>
    match visOf v b.status with
    | none => none
    | some vb =>
      match visFilter v t with
      | none => none
      | some r => some (if vb then b :: r else r)

/-- `refresh_book_list` (lines 325-363) as the visible-row computation: the
entry text is stripped and lowered; an empty result of that applies no text
filter; then the status-visibility pass runs over the text-filtered books. -/
def refresh_book_list (termRaw field : String) (v : StatusVis)
    (books : List Book) : Option (List Book) :=
  let term := pyLower (pyStrip termRaw)
  let filtered := if term = "" then books else books.filter (bookMatches term field)
  visFilter v filtered

/-- Case-insensitive substring containment as the specification words it:
the title (or tag, ...) case-insensitively contains the search term. -/
def ciContains (hay needle : String) : Bool := pyIn (pyLower needle) (pyLower hay)

/-- The failures `add_book` surfaces as warning dialogs before returning. -/
inductive AddErr where
  | emptyTitle
  | badDate
  | finishBeforeStart
deriving DecidableEq, Repr

/-- `[tag.strip() for tag in text.split(",") if tag.strip()]` (line 270). -/
def parseTags (text : String) : List String :=
  ((splitOnChar (Char.ofNat 44) text.data).map
    (fun cs => String.mk (stripList cs))).filter (fun t => t ≠ "")

/-- The guarded parse of one optional date entry in `add_book` (lines
249-253): an empty text stays `None`; otherwise `strptime` either yields a
date or raises `ValueError`, surfaced as the invalid-format warning. -/
def parseOptDate (s : String) : Except AddErr (Option PDate) :=
  if s = "" then Except.ok none
  else
    match strptimeDMY s with
    | some d => Except.ok (some d)
    | none => Except.error AddErr.badDate

/-- The order check of `add_book` (line 254): only when both dates parsed,
a finish date strictly before the start date is rejected. -/
def checkOrder (ps pf : Option PDate) : Except AddErr Unit :=
  match ps, pf with
  | some a, some b =>
    if dateLT b a then Except.error AddErr.finishBeforeStart else Except.ok ()
  | _, _ => Except.ok ()

/-- `add_book` (lines 238-282): strip the title and both date entries,
validate, and on success append the new record.  The author entry is taken
verbatim, the tag entry is split and trimmed, the initial status is computed
from which dates parsed, and the stored date sequences hold the stripped
entry texts.  On any failure the collection is returned untouched together
with the warning that was shown. -/
def add_book (books : List Book) (titleE authorE tagsE startE finishE : String) :
    List Book × Option AddErr :=
  if pyStrip titleE = "" then (books, some AddErr.emptyTitle)
  else
    match parseOptDate (pyStrip startE) with
    | Except.error e => (books, some e)
    | Except.ok parsed_start =>
      match parseOptDate (pyStrip finishE) with
      | Except.error e => (books, some e)
      | Except.ok parsed_finish =>
        match checkOrder parsed_start parsed_finish with
        | Except.error e => (books, some e)
        | Except.ok _ =>
          (books ++ [{ title := pyStrip titleE
                       author := authorE
                       tags := parseTags tagsE
                       status := if parsed_finish.isSome then sRead
                                 else if parsed_start.isSome then sReading
                                 else sUnread
                       start_date := if pyStrip startE = "" then []
                                     else [pyStrip startE]
                       date_finished := if pyStrip finishE = "" then []
                                        else [pyStrip finishE]
                       notes := "" }], none)

/-- `change_status` (lines 284-309) on the selected book: the status is
assigned first, unconditionally; then the branch for the transition runs,
its `messagebox.askyesno` prompt modelled by the `confirm` flag.  To `Read`
from another status, confirmation appends `today` to `date_finished` unless
already present; to `Reading` from another status with an empty
`start_date`, confirmation appends `today` to `start_date`; to `Unread`,
confirmation clears both date sequences. -/
def change_status (b : Book) (new_status today : String) (confirm : Bool) :
    Book :=
  let old_status := b.status
  let b1 : Book := { b with status := new_status }
  if new_status = sRead ∧ old_status ≠ sRead then
    if confirm then
      if today ∈ b1.date_finished then b1
      else { b1 with date_finished := b1.date_finished ++ [today] }
    else b1
  else if new_status = sReading ∧ old_status ≠ sReading then
    if b1.start_date = [] then
      if confirm then { b1 with start_date := b1.start_date ++ [today] }
      else b1
    else b1
  else if new_status = sUnread then
    if confirm then { b1 with start_date := [], date_finished := [] }
    else b1
  else b1

/-- `change_status` acting on `self.books[index]` (lines 288-290 subscript
the collection at the selected index and mutate that record in place). -/
def change_status_at (books : List Book) (index : Nat)
    (new_status today : String) (confirm : Bool) : List Book :=
  match books[index]? with
  | some b => books.set index (change_status b new_status today confirm)
  | none => books

/-- The sort key of one date sequence in `sort_column` (lines 402-409):
`datetime.min` for an empty sequence or an empty last element, otherwise
`strptime` of the last element; `none` models the `ValueError` that a
malformed last element raises out of the key function. -/
def lastDateKey (dates : List String) : Option PDate :=
  match dates.getLast? with
  | none => some minDate
  | some s => if s = "" then some minDate else strptimeDMY s

/-- The total key used for comparisons once every key is known to exist. -/
def dateSortKey (dates : List String) : PDate := (lastDateKey dates).getD minDate

/-- Comparison governing the stable sort, `reverse` flipping the order as
`list.sort(reverse=True)` does. -/
def keyLEb (reverse : Bool) (f : Book → List String) (a b : Book) : Bool :=
  if reverse then dateLE (dateSortKey (f b)) (dateSortKey (f a))
  else dateLE (dateSortKey (f a)) (dateSortKey (f b))

/-- Insert into a sorted list, after any element it compares equal to. -/
def ordInsert {α : Type} (le : α → α → Bool) (a : α) : List α → List α
  | [] => [a]
  | b :: l => if le a b then a :: b :: l else b :: ordInsert le a l

/-- Stable insertion sort; on a total preorder its result coincides with
the one stable sorted arrangement that Python's `list.sort` produces. -/
def isort {α : Type} (le : α → α → Bool) : List α → List α
  | [] => []
  | a :: l => ordInsert le a (isort le l)

/-- `sort_column` (lines 389-417) for the `Started`/`Finished` columns:
CPython's `list.sort` computes every key before reordering, so a key
failure (`ValueError` from `strptime`) aborts the sort with the collection
unchanged, modelled as `none`; otherwise the collection is stably sorted by
the date keys. -/
def sort_column_dates (f : Book → List String) (reverse : Bool)
    (books : List Book) : Option (List Book) :=
  if books.all (fun b => (lastDateKey (f b)).isSome) then
    some (isort (keyLEb reverse f) books)
  else none

/-- A raw record whose `status` key holds a value outside the three known
statuses. -/
def rBanana : RawBook :=
  { title := "X", author := "", tags := [], status := some ("Banana"),
    notes := none, start_date := none, date_finished := none }

/-- A raw record with legacy scalar `start_date` and missing
`status`/`notes`/`date_finished` keys. -/
def rW1 : RawBook :=
  { title := "t", author := "a", tags := [], status := none, notes := none,
    start_date := some (JVal.jstr ("01.01.2020")), date_finished := none }

/-- A book whose title contains no whitespace. -/
def bkC3 : Book := ⟨"b", "", [], sUnread, [], [], ""⟩

/-- A concrete `today` string in `DD.MM.YYYY` form. -/
def tdW : String := "05.05.2025"

/-- An unread book with no dates. -/
def bkW6 : Book := ⟨"W", "", [], sUnread, [], [], ""⟩

/-- An unread book whose `date_finished` already holds today twice. -/
def bkDup : Book := ⟨"D", "", [], sUnread, [], [tdW, tdW], ""⟩

/-- A book with every descriptive field populated. -/
def bkW10 : Book := ⟨"W10", "auth", ["t1", "t2"], sUnread, [], [], "memo"⟩

/-- A book with a parseable start date. -/
def bkG5 : Book := ⟨"G", "", [], sUnread, ["02.01.2020"], [], ""⟩

/-- A book with an empty start-date sequence. -/
def bkE5 : Book := ⟨"E", "", [], sUnread, [], [], ""⟩

/-- A book whose last start date parses to `datetime.min` (year 1). -/
def bkY5 : Book := ⟨"Y", "", [], sUnread, ["01.01.0001"], [], ""⟩

/-- Sort input for the amended sort claim. -/
def booksW5 : List Book := [bkG5, bkE5]

/-- The stable ascending sort of `booksW5` by start date. -/
def lW5 : List Book := [bkE5, bkG5]

/-- Lower-casing a string preserves emptiness. -/
theorem pyLower_eq_empty {s : String} : pyLower s = "" ↔ s = "" := by
  cases s with
  | mk d =>
    simp only [pyLower, String.ext_iff]
    exact List.map_eq_nil_iff

/-- The `datetime` order is reflexive. -/
theorem dateLE_refl (a : PDate) : dateLE a a = true := by
  simp [dateLE]

/-- The `datetime` order is total. -/
theorem dateLE_total (a b : PDate) : dateLE a b = true ∨ dateLE b a = true := by
  simp only [dateLE, decide_eq_true_eq]
  omega

/-- The `datetime` order is transitive. -/
theorem dateLE_trans {a b c : PDate} (h1 : dateLE a b = true)
    (h2 : dateLE b c = true) : dateLE a c = true := by
  simp only [dateLE, decide_eq_true_eq] at h1 h2 ⊢
  omega

/-- Membership in an insertion. -/
theorem mem_ordInsert {α : Type} (le : α → α → Bool) (a x : α) (l : List α) :
    x ∈ ordInsert le a l ↔ x = a ∨ x ∈ l := by
  induction l with
  | nil => simp [ordInsert]
  | cons b t ih =>
    simp only [ordInsert]
    split
    · simp [List.mem_cons]
    · simp only [List.mem_cons, ih]
      tauto

/-- Inserting into a sorted list keeps it sorted, for a total transitive
boolean preorder. -/
theorem pairwise_ordInsert {α : Type} (le : α → α → Bool)
    (htot : ∀ x y, le x y = true ∨ le y x = true)
    (htr : ∀ x y z, le x y = true → le y z = true → le x z = true)
    (a : α) (l : List α) (h : l.Pairwise (fun x y => le x y = true)) :
    (ordInsert le a l).Pairwise (fun x y => le x y = true) := by
  induction l with
  | nil => simp [ordInsert]
  | cons b t ih =>
    rw [List.pairwise_cons] at h
    obtain ⟨hb, ht⟩ := h
    by_cases hab : le a b = true
    · simp only [ordInsert, if_pos hab]
      rw [List.pairwise_cons]
      refine ⟨?_, List.pairwise_cons.mpr ⟨hb, ht⟩⟩
      intro y hy
      rcases List.mem_cons.mp hy with hy | hy
      · exact hy ▸ hab
      · exact htr a b y hab (hb y hy)
    · have hba : le b a = true := (htot a b).resolve_left hab
      simp only [ordInsert, if_neg hab]
      rw [List.pairwise_cons]
      refine ⟨?_, ih ht⟩
      intro y hy
      rcases (mem_ordInsert le a y t).mp hy with hy | hy
      · exact hy ▸ hba
      · exact hb y hy

/-- Insertion sort produces a sorted list, for a total transitive boolean
preorder. -/
theorem pairwise_isort {α : Type} (le : α → α → Bool)
    (htot : ∀ x y, le x y = true ∨ le y x = true)
    (htr : ∀ x y z, le x y = true → le y z = true → le x z = true)
    (l : List α) : (isort le l).Pairwise (fun x y => le x y = true) := by
  induction l with
  | nil => simp [isort]
  | cons a t ih => exact pairwise_ordInsert le htot htr a (isort le t) ih

/-- The source's normalization agrees with the date-coercion rule as the
specification words it, on every possible stored value. -/
theorem getDateField_eq_spec (v : Option JVal) :
    getDateField v = specCoerceDate v := by
  rcases v with _ | v
  · rfl
  · rcases v with xs | s | _ <;> rfl

/-- Claim C1 (amended: only a missing `status` is defaulted; a present but
invalid status value is kept as stored): normalization on load turns a
missing `notes` into the empty string, a missing `status` into `"Unread"`,
and coerces each date field by the keep-list / wrap-non-empty-scalar /
else-empty rule. -/
theorem c1_load_normalization (r : RawBook) :
    (r.notes = none → (normBook r).notes = "") ∧
    (r.status = none → (normBook r).status = sUnread) ∧
    (normBook r).start_date = specCoerceDate r.start_date ∧
    (normBook r).date_finished = specCoerceDate r.date_finished := by
  refine ⟨fun h => ?_, fun h => ?_, getDateField_eq_spec r.start_date,
    getDateField_eq_spec r.date_finished⟩
  · simp [normBook, h]
  · simp [normBook, h]

/-- Witness for C1 on a record with legacy scalar date and missing keys. -/
theorem c1_witness :
    (normBook rW1).notes = "" ∧ (normBook rW1).status = sUnread ∧
    (normBook rW1).start_date = specCoerceDate rW1.start_date ∧
    (normBook rW1).date_finished = specCoerceDate rW1.date_finished :=
  ⟨(c1_load_normalization rW1).1 rfl, (c1_load_normalization rW1).2.1 rfl,
    (c1_load_normalization rW1).2.2.1, (c1_load_normalization rW1).2.2.2⟩

/-- Counterexample to C1 as stated: a record whose `status` is the invalid
value `"Banana"` is not defaulted to `"Unread"` — `setdefault` only fills a
missing key, so the invalid status survives normalization. -/
theorem c1_counterexample :
    (normBook rBanana).status ≠ sUnread ∧
    STATUSES.contains ((normBook rBanana).status) = false := by
  decide

/-- Claim C2: on malformed JSON the initial load fails with the parse error
(`load_books` catches only `FileNotFoundError`, so `json.JSONDecodeError`
propagates), and the load-from-alternate-file action shows the error dialog
and leaves both the collection and the active path unchanged. -/
theorem c2_parse_error_handling (st : AppSt) (path : String) :
    load_books FileRead.badJson = Except.error LoadErr.parseErr ∧
    (load_file st path FileRead.badJson).1 = st ∧
    (load_file st path FileRead.badJson).2 = true :=
  ⟨rfl, rfl, rfl⟩

/-- Saving writes every key, so re-normalizing is the identity. -/
theorem normBook_bookToRaw (b : Book) : normBook (bookToRaw b) = b := rfl

/-- Claim C7: loading the saved form of a loaded collection reproduces the
loaded collection field for field and in order — normalization followed by
save is a fixed point of loading. -/
theorem c7_load_save_fixed_point (raws : List RawBook) :
    load_books (FileRead.ok (save_books (raws.map normBook))) =
      Except.ok (raws.map normBook) := by
  simp only [load_books, save_books, List.map_map, Except.ok.injEq]
  exact List.map_congr_left (fun b _ => normBook_bookToRaw (normBook b))

/-- The `matches` lookup at selector `"Title"` is the title test. -/
theorem bookMatches_title (t : String) (b : Book) :
    bookMatches t fTitle b = pyIn t (pyLower b.title) := rfl

/-- The `matches` lookup at selector `"Tags"` is the any-tag test. -/
theorem bookMatches_tags (t : String) (b : Book) :
    bookMatches t fTags b = b.tags.any (fun tg => pyIn t (pyLower tg)) := rfl

/-- On books whose status is one of the three known ones, the status pass
of `refresh_book_list` is a plain filter by the ticked checkboxes. -/
theorem visFilter_eq_filter (v : StatusVis) (l : List Book)
    (h : ∀ b ∈ l, (visOf v b.status).isSome = true) :
    visFilter v l = some (l.filter (visibleB v)) := by
  induction l with
  | nil => rfl
  | cons b t ih =>
    obtain ⟨vb, hvb⟩ := Option.isSome_iff_exists.mp (h b (List.mem_cons_self b t))
    have ih' := ih (fun x hx => h x (List.mem_cons_of_mem _ hx))
    simp only [visFilter, hvb, ih', List.filter_cons, visibleB]
    cases vb <;> simp [hvb]

/-- Claim C3 (amended: the entry text is stripped of surrounding whitespace
first, and matching uses the trimmed term): for every term that is
non-empty after trimming, filtering on the `Title` selector returns exactly
the visible books whose title case-insensitively contains the trimmed term,
and on the `Tags` selector exactly the visible books having at least one
tag that case-insensitively contains the trimmed term. -/
theorem c3_filter_title_tags (termRaw : String) (v : StatusVis)
    (books : List Book)
    (ht : pyStrip termRaw ≠ "")
    (hv : (books.all (fun b => (visOf v b.status).isSome)) = true) :
    refresh_book_list termRaw fTitle v books =
      some (books.filter (fun b =>
        ciContains b.title (pyStrip termRaw) && visibleB v b)) ∧
    refresh_book_list termRaw fTags v books =
      some (books.filter (fun b =>
        (b.tags.any (fun tg => ciContains tg (pyStrip termRaw))) && visibleB v b)) := by
  have hterm : pyLower (pyStrip termRaw) ≠ "" :=
    fun hcon => ht (pyLower_eq_empty.mp hcon)
  rw [List.all_eq_true] at hv
  constructor
  · simp only [refresh_book_list, if_neg hterm]
    rw [visFilter_eq_filter v _ (fun b hb => hv b (List.mem_filter.mp hb).1),
      List.filter_filter]
    refine congrArg some (List.filter_congr ?_)
    intro b _
    rw [bookMatches_title, Bool.and_comm]
    rfl
  · simp only [refresh_book_list, if_neg hterm]
    rw [visFilter_eq_filter v _ (fun b hb => hv b (List.mem_filter.mp hb).1),
      List.filter_filter]
    refine congrArg some (List.filter_congr ?_)
    intro b _
    rw [bookMatches_tags, Bool.and_comm]
    rfl

/-- Witness for C3 on a two-book collection and the term `"ab"`. -/
theorem c3_witness :
    refresh_book_list ("ab") fTitle visAll [bkW10, bkC3] =
      some (List.filter (fun b =>
        ciContains b.title (pyStrip ("ab")) && visibleB visAll b) [bkW10, bkC3]) ∧
    refresh_book_list ("ab") fTags visAll [bkW10, bkC3] =
      some (List.filter (fun b =>
        (b.tags.any (fun tg => ciContains tg (pyStrip ("ab")))) && visibleB visAll b)
        [bkW10, bkC3]) :=
  c3_filter_title_tags ("ab") visAll [bkW10, bkC3] (by decide) (by decide)

/-- Counterexample to C3 as stated: the whitespace term `" "` is non-empty,
yet the code strips it to the empty string and applies no text filter, so a
book whose title does not contain `" "` is still returned. -/
theorem c3_counterexample :
    refresh_book_list (" ") fTitle visAll [bkC3] = some [bkC3] ∧
    List.filter (fun b => ciContains b.title (" ") && visibleB visAll b) [bkC3]
      = [] := by
  decide

/-- The empty string never parses as a date. -/
theorem strptimeDMY_empty : strptimeDMY ("") = none := rfl

/-- Claim C4 (amended: the date entry texts are stripped of surrounding
whitespace before parsing, so the conditions speak of the trimmed texts):
`add_book` fails — returning a warning and the untouched collection — when
the title is empty after trimming, when a trimmed date text is non-empty
but does not parse as a `DD.MM.YYYY` calendar date, or when both dates
parse and the finish date strictly precedes the start date. -/
theorem c4_add_book_validation (books : List Book) (tE aE gE sE fE : String)
    (h : pyStrip tE = "" ∨
      (pyStrip sE ≠ "" ∧ strptimeDMY (pyStrip sE) = none) ∨
      (pyStrip fE ≠ "" ∧ strptimeDMY (pyStrip fE) = none) ∨
      (∃ ps pf, strptimeDMY (pyStrip sE) = some ps ∧
        strptimeDMY (pyStrip fE) = some pf ∧ dateLT pf ps = true)) :
    (add_book books tE aE gE sE fE).2 ≠ none ∧
    (add_book books tE aE gE sE fE).1 = books := by
  rcases hAB : add_book books tE aE gE sE fE with ⟨bs', err⟩
  unfold add_book at hAB
  split at hAB
  · cases hAB
    exact ⟨by simp, rfl⟩
  · rename_i htitle
    split at hAB
    · cases hAB
      exact ⟨by simp, rfl⟩
    · rename_i ps hps
      split at hAB
      · cases hAB
        exact ⟨by simp, rfl⟩
      · rename_i pf hpf
        split at hAB
        · cases hAB
          exact ⟨by simp, rfl⟩
        · rename_i u hord
          cases hAB
          exfalso
          rcases h with h | ⟨hne, hnone⟩ | ⟨hne, hnone⟩ | ⟨a, b, hsa, hfb, hlt⟩
          · exact htitle h
          · rw [parseOptDate, if_neg hne, hnone] at hps
            cases hps
          · rw [parseOptDate, if_neg hne, hnone] at hpf
            cases hpf
          · have hsne : pyStrip sE ≠ "" := by
              intro h0
              rw [h0, strptimeDMY_empty] at hsa
              cases hsa
            have hfne : pyStrip fE ≠ "" := by
              intro h0
              rw [h0, strptimeDMY_empty] at hfb
              cases hfb
            rw [parseOptDate, if_neg hsne, hsa] at hps
            rw [parseOptDate, if_neg hfne, hfb] at hpf
            cases hps
            cases hpf
            rw [checkOrder, if_pos hlt] at hord
            cases hord

/-- Witness for C4: an empty title aborts the creation. -/
theorem c4_witness :
    (add_book ([] : List Book) ("") ("a") ("") ("") ("")).2 ≠ none ∧
    (add_book ([] : List Book) ("") ("a") ("") ("") ("")).1 = [] :=
  c4_add_book_validation [] ("") ("a") ("") ("") ("") (Or.inl (by decide))

/-- Counterexample to C4 as stated: the supplied start text
`" 02.01.2020"` does not parse as `DD.MM.YYYY` (the leading space makes
`strptime` raise), yet `add_book` strips it first and succeeds, appending a
book. -/
theorem c4_counterexample :
    strptimeDMY (" 02.01.2020") = none ∧
    (add_book ([] : List Book) ("T") ("") ("") (" 02.01.2020") ("")).2 = none ∧
    (add_book ([] : List Book) ("T") ("") ("") (" 02.01.2020") ("")).1 ≠ [] := by
  decide

/-- Claim C8 (amended: the stored texts and the status conditions refer to
the date entry texts after trimming surrounding whitespace): every
successful `add_book` appends one book whose status is `Read` when the
trimmed finish text is non-empty, else `Reading` when the trimmed start
text is non-empty, else `Unread`, and whose date sequences are the
one-element lists of the trimmed texts, or empty. -/
theorem c8_create_initial_fields (books : List Book) (tE aE gE sE fE : String)
    (h : (add_book books tE aE gE sE fE).2 = none) :
    ∃ nb : Book, (add_book books tE aE gE sE fE).1 = books ++ [nb] ∧
      nb.status = (if pyStrip fE ≠ "" then sRead
                   else if pyStrip sE ≠ "" then sReading else sUnread) ∧
      nb.start_date = (if pyStrip sE = "" then ([] : List String)
                       else [pyStrip sE]) ∧
      nb.date_finished = (if pyStrip fE = "" then ([] : List String)
                          else [pyStrip fE]) := by
  rcases hAB : add_book books tE aE gE sE fE with ⟨bs', err⟩
  rw [hAB] at h
  simp only at h
  subst h
  unfold add_book at hAB
  split at hAB
  · cases hAB
  · split at hAB
    · cases hAB
    · rename_i ps hps
      split at hAB
      · cases hAB
      · rename_i pf hpf
        split at hAB
        · cases hAB
        · cases hAB
          rw [parseOptDate] at hps hpf
          refine ⟨_, rfl, ?_, rfl, rfl⟩
          split at hps
          · rename_i h0
            cases hps
            split at hpf
            · rename_i h1
              cases hpf
              simp [h0, h1]
            · rename_i h1
              split at hpf
              · cases hpf
                simp [h0, h1]
              · cases hpf
          · rename_i h0
            split at hps
            · cases hps
              split at hpf
              · rename_i h1
                cases hpf
                simp [h0, h1]
              · rename_i h1
                split at hpf
                · cases hpf
                  simp [h0, h1]
                · cases hpf
            · cases hps

/-- Witness for C8: creating with a start date only. -/
theorem c8_witness :
    ∃ nb : Book,
      (add_book ([] : List Book) ("T") ("A") ("g") ("02.01.2020") ("")).1
        = [] ++ [nb] ∧
      nb.status = (if pyStrip ("") ≠ "" then sRead
                   else if pyStrip ("02.01.2020") ≠ "" then sReading else sUnread) ∧
      nb.start_date = (if pyStrip ("02.01.2020") = "" then ([] : List String)
                       else [pyStrip ("02.01.2020")]) ∧
      nb.date_finished = (if pyStrip ("") = "" then ([] : List String)
                          else [pyStrip ("")]) :=
  c8_create_initial_fields [] ("T") ("A") ("g") ("02.01.2020") ("") (by decide)

/-- Counterexample to C8 as stated: supplying the start text
`" 02.01.2020"` stores the trimmed `"02.01.2020"`, not the supplied text
itself. -/
theorem c8_counterexample :
    ((add_book ([] : List Book) ("T") ("") ("") (" 02.01.2020") ("")).1.map
      Book.start_date) = [[("02.01.2020" : String)]] ∧
    (" 02.01.2020" : String) ≠ ("02.01.2020" : String) := by
  decide

/-- Unfolding of `change_status` to `Read` from a different status with
confirmation: the status is set and today is appended unless present. -/
theorem change_status_read_confirm (b : Book) (today : String)
    (h : b.status ≠ sRead) :
    change_status b sRead today true =
      (if today ∈ b.date_finished then { b with status := sRead }
       else { b with status := sRead, date_finished := b.date_finished ++ [today] }) := by
  unfold change_status
  rw [if_pos (show sRead = sRead ∧ b.status ≠ sRead from ⟨rfl, h⟩),
    if_pos (rfl : (true : Bool) = true)]

/-- Unfolding of `change_status` to `Read` from a different status with
confirmation declined: only the status changes. -/
theorem change_status_read_decline (b : Book) (today : String)
    (h : b.status ≠ sRead) :
    change_status b sRead today false = { b with status := sRead } := by
  unfold change_status
  rw [if_pos (show sRead = sRead ∧ b.status ≠ sRead from ⟨rfl, h⟩),
    if_neg (show ¬((false : Bool) = true) by decide)]

/-- Unfolding of `change_status` to `Read` on a book already `Read`: every
branch guard fails and only the (identical) status assignment remains. -/
theorem change_status_read_idem (b : Book) (today : String) (c : Bool)
    (h : b.status = sRead) :
    change_status b sRead today c = { b with status := sRead } := by
  have h1 : ¬(sRead = sRead ∧ b.status ≠ sRead) := fun hc => hc.2 h
  have h2 : ¬(sRead = sReading ∧ b.status ≠ sReading) := fun hc =>
    absurd hc.1 (by decide)
  have h3 : ¬(sRead = sUnread) := by decide
  unfold change_status
  rw [if_neg h1, if_neg h2, if_neg h3]

/-- Claim C6 (amended: when at most one entry for today is present
beforehand, the double transition leaves exactly one; pre-existing
duplicate entries are left as they are): transitioning to `Read` with
confirmation appends today only if absent, doing it twice in a day yields
exactly one entry for today, and declining the confirmation leaves
`date_finished` unchanged while the status still becomes `Read`. -/
theorem c6_change_status_read (b : Book) (today : String)
    (h1 : b.status ≠ sRead) (h2 : b.date_finished.count today ≤ 1) :
    (change_status b sRead today true).date_finished =
      (if today ∈ b.date_finished then b.date_finished
       else b.date_finished ++ [today]) ∧
    (change_status (change_status b sRead today true) sRead today
        true).date_finished.count today = 1 ∧
    (change_status b sRead today false).date_finished = b.date_finished ∧
    (change_status b sRead today false).status = sRead := by
  rw [change_status_read_confirm b today h1, change_status_read_decline b today h1]
  by_cases hmem : today ∈ b.date_finished
  · simp only [if_pos hmem]
    have hone : b.date_finished.count today = 1 :=
      Nat.le_antisymm h2 (List.count_pos_iff.mpr hmem)
    rw [change_status_read_idem _ today true rfl]
    exact ⟨trivial, hone, trivial, trivial⟩
  · simp only [if_neg hmem]
    rw [change_status_read_idem _ today true rfl]
    refine ⟨trivial, ?_, trivial, trivial⟩
    simp [List.count_append, List.count_eq_zero.mpr hmem]

/-- Witness for C6 on an unread book with no finish dates. -/
theorem c6_witness :
    (change_status bkW6 sRead tdW true).date_finished =
      (if tdW ∈ bkW6.date_finished then bkW6.date_finished
       else bkW6.date_finished ++ [tdW]) ∧
    (change_status (change_status bkW6 sRead tdW true) sRead tdW
        true).date_finished.count tdW = 1 ∧
    (change_status bkW6 sRead tdW false).date_finished = bkW6.date_finished ∧
    (change_status bkW6 sRead tdW false).status = sRead :=
  c6_change_status_read bkW6 tdW (by decide) (by decide)

/-- Counterexample to C6 as stated: a book loaded with today already twice
in `date_finished` keeps both entries — two transitions to `Read` leave two
entries for today, not exactly one. -/
theorem c6_counterexample :
    bkDup.status ≠ sRead ∧
    (change_status (change_status bkDup sRead tdW true) sRead tdW
        true).date_finished.count tdW = 2 := by
  decide

/-- Every branch of `change_status` assigns the requested status and leaves
title, author, tags and notes untouched. -/
theorem change_status_fields (b : Book) (ns td : String) (c : Bool) :
    (change_status b ns td c).status = ns ∧
    (change_status b ns td c).title = b.title ∧
    (change_status b ns td c).author = b.author ∧
    (change_status b ns td c).tags = b.tags ∧
    (change_status b ns td c).notes = b.notes := by
  simp only [change_status]
  repeat' split
  all_goals exact ⟨rfl, rfl, rfl, rfl, rfl⟩

/-- Claim C10: `change_status` on the book at a valid index sets that
book's status to the requested value whatever the confirmation decision,
leaves its title, author, tags and notes unchanged, and leaves every other
position of the collection (and its length) unchanged. -/
theorem c10_change_status_frame (books : List Book) (i : Nat)
    (ns today : String) (confirm : Bool) (hi : i < books.length) :
    (change_status_at books i ns today confirm).length = books.length ∧
    ((change_status_at books i ns today confirm)[i]?).map Book.status
      = some ns ∧
    ((change_status_at books i ns today confirm)[i]?).map Book.title
      = (books[i]?).map Book.title ∧
    ((change_status_at books i ns today confirm)[i]?).map Book.author
      = (books[i]?).map Book.author ∧
    ((change_status_at books i ns today confirm)[i]?).map Book.tags
      = (books[i]?).map Book.tags ∧
    ((change_status_at books i ns today confirm)[i]?).map Book.notes
      = (books[i]?).map Book.notes ∧
    ∀ j : Nat, j ≠ i →
      (change_status_at books i ns today confirm)[j]? = books[j]? := by
  have hget : books[i]? = some books[i] := List.getElem?_eq_getElem hi
  have hcs := change_status_fields books[i] ns today confirm
  simp only [change_status_at, hget]
  have hset : (books.set i (change_status books[i] ns today confirm))[i]?
      = some (change_status books[i] ns today confirm) :=
    List.getElem?_set_eq_of_lt _ hi
  refine ⟨List.length_set books i _, ?_, ?_, ?_, ?_, ?_, ?_⟩
  · rw [hset]
    simp [hcs.1]
  · rw [hset]
    simp [hcs.2.1]
  · rw [hset]
    simp [hcs.2.2.1]
  · rw [hset]
    simp [hcs.2.2.2.1]
  · rw [hset]
    simp [hcs.2.2.2.2]
  · intro j hj
    exact List.getElem?_set_ne (Ne.symm hj)

/-- Witness for C10 on a one-book collection, confirmation declined. -/
theorem c10_witness :
    (change_status_at [bkW10] 0 sRead tdW false).length = 1 ∧
    ((change_status_at [bkW10] 0 sRead tdW false)[0]?).map Book.status
      = some sRead ∧
    ((change_status_at [bkW10] 0 sRead tdW false)[0]?).map Book.notes
      = (([bkW10] : List Book)[0]?).map Book.notes ∧
    (change_status_at [bkW10] 0 sRead tdW false)[1]?
      = ([bkW10] : List Book)[1]? := by
  have h := c10_change_status_frame [bkW10] 0 sRead tdW false (by decide)
  exact ⟨h.1, h.2.1, h.2.2.2.2.2.1, h.2.2.2.2.2.2 1 (by decide)⟩

/-- The sort comparison is total. -/
theorem keyLEb_total (rev : Bool) (f : Book → List String) (x y : Book) :
    keyLEb rev f x y = true ∨ keyLEb rev f y x = true := by
  unfold keyLEb
  cases rev
  · simpa using dateLE_total (dateSortKey (f x)) (dateSortKey (f y))
  · simpa using dateLE_total (dateSortKey (f y)) (dateSortKey (f x))

/-- The sort comparison is transitive. -/
theorem keyLEb_trans (rev : Bool) (f : Book → List String) (x y z : Book)
    (h1 : keyLEb rev f x y = true) (h2 : keyLEb rev f y z = true) :
    keyLEb rev f x z = true := by
  unfold keyLEb at h1 h2 ⊢
  cases rev
  · simp only [if_neg (show ¬((false : Bool) = true) by decide)] at h1 h2 ⊢
    exact dateLE_trans h1 h2
  · simp only [if_pos (rfl : (true : Bool) = true)] at h1 h2 ⊢
    exact dateLE_trans h2 h1

/-- A successful date-column sort returns the list sorted by the keys. -/
theorem sorted_sort_column (f : Book → List String) (rev : Bool)
    (books l : List Book) (h : sort_column_dates f rev books = some l) :
    l.Pairwise (fun a b => keyLEb rev f a b = true) := by
  unfold sort_column_dates at h
  split at h
  · cases h
    exact pairwise_isort (keyLEb rev f) (keyLEb_total rev f)
      (keyLEb_trans rev f) books
  · cases h

/-- Claim C5 (amended: a non-empty date sequence whose last element parses
to the minimum date shares the empty sequence's key, and sort stability
then decides by original position): an ascending date-column sort orders
the books by non-decreasing date key, an empty sequence has the minimum
possible date as its key, and every book with an empty sequence is placed
before every book whose key is strictly greater than the minimum. -/
theorem c5_sort_dates (f : Book → List String)
    (_hf : f = Book.start_date ∨ f = Book.date_finished)
    (books l : List Book)
    (h : sort_column_dates f false books = some l) :
    (∀ (i j : Nat) (hi : i < l.length) (hj : j < l.length), i ≤ j →
        dateLE (dateSortKey (f (l.get ⟨i, hi⟩)))
          (dateSortKey (f (l.get ⟨j, hj⟩))) = true) ∧
    dateSortKey ([] : List String) = minDate ∧
    (∀ (i j : Nat) (hi : i < l.length) (hj : j < l.length),
        f (l.get ⟨j, hj⟩) = [] →
        dateLE (dateSortKey (f (l.get ⟨i, hi⟩))) minDate = false →
        j < i) := by
  have hp := sorted_sort_column f false books l h
  have hsor : ∀ (i j : Nat) (hi : i < l.length) (hj : j < l.length), i ≤ j →
      dateLE (dateSortKey (f (l.get ⟨i, hi⟩)))
        (dateSortKey (f (l.get ⟨j, hj⟩))) = true := by
    intro i j hi hj hij
    rcases Nat.lt_or_ge i j with hlt | hge
    · exact List.pairwise_iff_get.mp hp ⟨i, hi⟩ ⟨j, hj⟩ hlt
    · have : i = j := Nat.le_antisymm hij hge
      subst this
      exact dateLE_refl _
  refine ⟨hsor, rfl, ?_⟩
  intro i j hi hj hempty hgt
  by_contra hcon
  have hij : i ≤ j := Nat.le_of_not_lt hcon
  have hle := hsor i j hi hj hij
  rw [hempty] at hle
  have hmin : dateSortKey ([] : List String) = minDate := rfl
  rw [hmin] at hle
  rw [hgt] at hle
  cases hle

/-- Witness for C5: sorting a non-minimal-key book and an empty-date book
puts the empty one first. -/
theorem c5_witness :
    dateLE (dateSortKey (Book.start_date (lW5.get ⟨0, by decide⟩)))
      (dateSortKey (Book.start_date (lW5.get ⟨1, by decide⟩))) = true ∧
    (0 : Nat) < 1 := by
  have h := c5_sort_dates Book.start_date (Or.inl rfl) booksW5 lW5 (by decide)
  exact ⟨h.1 0 1 (by decide) (by decide) (by decide),
    h.2.2 1 0 (by decide) (by decide) (by decide) (by decide)⟩

/-- Counterexample to C5 as stated: `"01.01.0001"` parses to the minimum
possible date, so a book carrying it ties with an empty-date book and the
stable ascending sort leaves the empty-date book after it. -/
theorem c5_counterexample :
    bkY5.start_date ≠ [] ∧ bkE5.start_date = [] ∧
    sort_column_dates Book.start_date false [bkY5, bkE5]
      = some [bkY5, bkE5] := by
  decide

/-- If the last element of every non-empty sequence under `f` parses, every
sort key exists and the date-column sort succeeds. -/
theorem sort_column_dates_isSome (f : Book → List String) (rev : Bool)
    (books : List Book)
    (h : books.all (fun b =>
      Option.all (fun s => (strptimeDMY s).isSome) (f b).getLast?) = true) :
    (sort_column_dates f rev books).isSome = true := by
  unfold sort_column_dates
  rw [if_pos]
  · rfl
  · rw [List.all_eq_true] at h ⊢
    intro b hb
    have hbp := h b hb
    unfold lastDateKey
    cases hL : (f b).getLast? with
    | none => rfl
    | some s =>
      rw [hL] at hbp
      show (if s = "" then some minDate else strptimeDMY s).isSome = true
      by_cases hse : s = ""
      · rw [if_pos hse]
        rfl
      · rw [if_neg hse]
        simpa [Option.all] using hbp

/-- Claim C9: under the precondition that the last element of every
non-empty `start_date` (resp. `date_finished`) sequence parses as
`DD.MM.YYYY`, the date-column sort completes without error — the
`ValueError` branch of the key computation is unreachable. -/
theorem c9_sort_no_error (books : List Book) (rev : Bool)
    (hs : books.all (fun b =>
      Option.all (fun s => (strptimeDMY s).isSome) b.start_date.getLast?) = true)
    (hf : books.all (fun b =>
      Option.all (fun s => (strptimeDMY s).isSome) b.date_finished.getLast?) = true) :
    (sort_column_dates Book.start_date rev books).isSome = true ∧
    (sort_column_dates Book.date_finished rev books).isSome = true :=
  ⟨sort_column_dates_isSome Book.start_date rev books hs,
    sort_column_dates_isSome Book.date_finished rev books hf⟩

/-- Witness for C9 on a one-book collection with a parseable start date. -/
theorem c9_witness :
    (sort_column_dates Book.start_date false [bkG5]).isSome = true ∧
    (sort_column_dates Book.date_finished false [bkG5]).isSome = true :=
  c9_sort_no_error [bkG5] false (by decide) (by decide)

end BookTracker
